import Mathlib

/-!
# Verification of the ExoNAMD parameter-resolution and NAMD engine

Shallow embedding of the core of `exonamd` (`core.py`, `solve.py`,
`interp.py`).  Floating-point scalars that may be NaN are modelled as
`Option ℝ` (`none` = NaN); finite-real arithmetic is modelled exactly on
`ℝ` (IEEE infinities and division-by-zero artefacts are outside the
modelled domain).  Monte Carlo draws (`np.random.normal`) are modelled
as explicit sample-list arguments, so all post-sampling behaviour is
deterministic and stated over those lists.
-/

namespace ExoNAMD

open Classical

/-- A nullable float: `none` models IEEE NaN. -/
abbrev F := Option ℝ

/-- Model of `np.isnan`. -/
def isnan (x : F) : Bool := x.isNone

/-- NaN-propagating addition. -/
noncomputable def oadd (x y : F) : F := x.bind fun a => y.map fun b => a + b

/-- NaN-propagating subtraction. -/
noncomputable def osub (x y : F) : F := x.bind fun a => y.map fun b => a - b

/-- NaN-propagating multiplication. -/
noncomputable def omul (x y : F) : F := x.bind fun a => y.map fun b => a * b

/-- NaN-propagating division (finite-real idealization). -/
noncomputable def odiv (x y : F) : F := x.bind fun a => y.map fun b => a / b

/-- NaN-propagating negation. -/
noncomputable def oneg (x : F) : F := x.map (fun a => -a)

/-- NaN-propagating square. -/
noncomputable def osq (x : F) : F := omul x x

/-- Model of `np.sqrt` on a nullable float: NaN on negative input. -/
noncomputable def osqrtF (x : F) : F :=
  x.bind fun a => if 0 ≤ a then some (Real.sqrt a) else none

/-- NaN-propagating sum of a list (`np.sum`). -/
noncomputable def osum (l : List F) : F := l.foldr oadd (some 0)

/-- `np.deg2rad`. -/
noncomputable def deg2rad (x : ℝ) : ℝ := x * (Real.pi / 180)

/-- `core.compute_amd` (elementwise form):
`m * sqrt(a) * (1 - sqrt(1 - e**2) * cos(deg2rad(di)))`. -/
noncomputable def compute_amd (m e di a : ℝ) : ℝ :=
  m * Real.sqrt a * (1 - Real.sqrt (1 - e ^ 2) * Real.cos (deg2rad di))

/-- `core.compute_namd`: `sum(amd) / sum(m * sqrt_a)` over the planets of a
system. -/
noncomputable def compute_namd (amd m sqrt_a : List ℝ) : ℝ :=
  amd.sum / (List.zipWith (fun x y => x * y) m sqrt_a).sum

/-! ## Physical constants (astropy nominal values, SI) -/

/-- One solar radius expressed in astronomical units
(`(1 * u.R_sun).to(u.au).value`). -/
noncomputable def Rsun_au : ℝ := 6.957e8 / 1.495978707e11

/-- One solar radius expressed in Earth radii
(`(1 * u.R_sun).to(u.R_earth).value`). -/
noncomputable def Rsun_Rearth : ℝ := 6.957e8 / 6.3781e6

/-- One astronomical unit in metres. -/
noncomputable def au_m : ℝ := 1.495978707e11

/-- One day in seconds. -/
noncomputable def day_s : ℝ := 86400

/-- One solar mass in kilograms. -/
noncomputable def Msun_kg : ℝ := 1.98840987e30

/-- Newton's gravitational constant (SI). -/
noncomputable def G_SI : ℝ := 6.6743e-11

/-- `2.0 * np.pi / np.sqrt(cc.G)` (in SI base units). -/
noncomputable def two_pi_G : ℝ := 2 * Real.pi / Real.sqrt G_SI

/-! ## The data model: catalog rows -/

/-- The NAMD variant selector: `"rel"` (relative inclination) or
`"abs"` (true obliquity). -/
inductive Kind
  | rel
  | abs
deriving DecidableEq

/-- A catalog row (one planet).  Every physical quantity is a nullable
float; `flag` is the provenance string; `sy_pnum` is the system planet
count.  `amd_rel`/`amd_abs` model the `amd_{kind}` columns when present,
`namd_rel_col`/`namd_abs_col` model presence (`Option`) and content of a
cached `namd_{kind}` column, and `amd_rel_q`/`amd_abs_q` model presence
and content of cached `amd_{kind}_q16/q50/q84` columns. -/
structure Row where
  hostname : String := ""
  pl_name : String := ""
  flag : String := ""
  sy_pnum : ℝ := 0
  pl_orbper : F := none
  pl_orbsmax : F := none
  pl_orbsmaxerr1 : F := none
  pl_orbsmaxerr2 : F := none
  pl_ratdor : F := none
  st_rad : F := none
  st_mass : F := none
  pl_rade : F := none
  pl_radeerr1 : F := none
  pl_radeerr2 : F := none
  pl_ratror : F := none
  pl_bmasse : F := none
  pl_bmasseerr1 : F := none
  pl_bmasseerr2 : F := none
  pl_orbeccen : F := none
  pl_orbeccenerr1 : F := none
  pl_orbeccenerr2 : F := none
  pl_orbincl : F := none
  pl_orbinclerr1 : F := none
  pl_orbinclerr2 : F := none
  pl_relincl : F := none
  pl_relinclerr1 : F := none
  pl_relinclerr2 : F := none
  pl_trueobliq : F := none
  pl_trueobliqerr1 : F := none
  pl_trueobliqerr2 : F := none
  amd_rel : F := none
  amd_abs : F := none
  namd_rel_col : Option F := none
  namd_abs_col : Option F := none
  amd_rel_q : Option (F × F × F) := none
  amd_abs_q : Option (F × F × F) := none

/-- The `amd_{kind}` column of a row. -/
def Row.amdOf (r : Row) : Kind → F
  | .rel => r.amd_rel
  | .abs => r.amd_abs

/-- Presence/content of the cached `namd_{kind}` column on a row. -/
def Row.namdCache (r : Row) : Kind → Option F
  | .rel => r.namd_rel_col
  | .abs => r.namd_abs_col

/-- Presence/content of the cached `amd_{kind}_q16/q50/q84` columns. -/
def Row.amdQCache (r : Row) : Kind → Option (F × F × F)
  | .rel => r.amd_rel_q
  | .abs => r.amd_abs_q

/-- `df[df["hostname"] == hostname]`, keeping the positional row labels
(pandas index) of the full table. -/
def hostOf (df : List Row) (h : String) : List (ℕ × Row) :=
  df.enum.filter (fun p => p.2.hostname == h)

/-- Running pass of pandas `Series.idxmax`: scan the remaining entries,
replacing the current best only on a strictly larger value (so the
*first* occurrence of the maximum wins) and skipping NaN entries. -/
noncomputable def idxmaxGo (best : ℕ × ℝ) : List (ℕ × F) → ℕ × ℝ
  | [] => best
  | (i, x) :: rest =>
    match x with
    | none => idxmaxGo best rest
    | some v => if best.2 < v then idxmaxGo (i, v) rest else idxmaxGo best rest

/-- pandas `Series.idxmax` over a labelled nullable column: label and
value of the first maximal non-NaN entry; `none` (an exception in
pandas) when every entry is NaN. -/
noncomputable def idxmaxF : List (ℕ × F) → Option (ℕ × ℝ)
  | [] => none
  | (_, none) :: rest => idxmaxF rest
  | (i, some v) :: rest => some (idxmaxGo (i, v) rest)

/-- `host.loc[label]`: look a row up by its label. -/
def lookupRow (l : List (ℕ × Row)) (i : ℕ) : Option Row :=
  (l.find? (fun p => p.1 == i)).map Prod.snd

/-- The labelled `pl_bmasse` column of a host sub-table. -/
def massCol (l : List (ℕ × Row)) : List (ℕ × F) :=
  l.map (fun p => (p.1, p.2.pl_bmasse))

/-! ## `solve.py`: the physical-relation solver -/

/-- `np.isnan(x) + np.isnan(y) + np.isnan(z)`: missingness count of a
triad. -/
def nanCount3 (x y z : F) : ℕ :=
  (cond (isnan x) 1 0) + (cond (isnan y) 1 0) + (cond (isnan z) 1 0)

/-- `solve.solve_a_rs`: solve the semi-major axis -- stellar radius --
ratio triad; identity unless exactly one member is NaN. -/
noncomputable def solve_a_rs (sma rstar ars : F) : F × F × F :=
  if nanCount3 sma ars rstar ≠ 1 then (sma, rstar, ars)
  else if isnan sma then
    (omul (omul ars rstar) (some Rsun_au), rstar, ars)
  else if isnan rstar then
    (sma, odiv (odiv sma ars) (some Rsun_au), ars)
  else
    (sma, rstar, odiv sma (omul rstar (some Rsun_au)))

/-- `solve.solve_rprs`: solve the planet radius -- stellar radius --
radius-ratio triad; identity unless exactly one member is NaN. -/
noncomputable def solve_rprs (rplanet rstar rprs : F) : F × F × F :=
  if nanCount3 rplanet rstar rprs ≠ 1 then (rplanet, rstar, rprs)
  else if isnan rplanet then
    (omul (omul rprs rstar) (some Rsun_Rearth), rstar, rprs)
  else if isnan rstar then
    (rplanet, odiv (odiv rplanet rprs) (some Rsun_Rearth), rprs)
  else
    (rplanet, rstar, odiv rplanet (omul rstar (some Rsun_Rearth)))

/-- `solve.solve_a_period`: solve the period -- semi-major axis --
stellar mass triad (Kepler's third law); identity unless exactly one
member is NaN.  Unit conversions are carried explicitly in SI. -/
noncomputable def solve_a_period (period sma mstar : F) : F × F × F :=
  if nanCount3 period sma mstar ≠ 1 then (period, sma, mstar)
  else if isnan mstar then
    (period, sma,
      ((omul sma (some au_m)).bind fun s =>
        period.map fun p =>
          s ^ (3 : ℕ) / ((p * day_s / two_pi_G) ^ (2 : ℕ)) / Msun_kg))
  else if isnan period then
    (((omul sma (some au_m)).bind fun s =>
        mstar.map fun m =>
          Real.sqrt (s ^ (3 : ℕ) / (m * Msun_kg)) * two_pi_G / day_s),
      sma, mstar)
  else
    (period,
      ((omul period (some day_s)).bind fun p =>
        mstar.map fun m =>
          ((p / two_pi_G) ^ (2 : ℕ) * (m * Msun_kg)) ^ ((1 : ℝ) / 3) / au_m),
      mstar)

/-- Select one of three missingness counts by triad index, mirroring the
list `[a_rs_, rprs_, a_period_]`. -/
def sel (a b c : ℕ) (i : Fin 3) : ℕ :=
  if i.val = 0 then a else if i.val = 1 then b else c

/-- `np.argsort([a, b, c])`: the triad indices in ascending order of
their values (stable on ties, as numpy's small-array insertion sort
is). -/
def argsort3 (a b c : ℕ) : List (Fin 3) :=
  if a ≤ b then
    if b ≤ c then [0, 1, 2]
    else if a ≤ c then [0, 2, 1]
    else [2, 0, 1]
  else
    if a ≤ c then [1, 0, 2]
    else if b ≤ c then [1, 2, 0]
    else [2, 1, 0]

/-- The seven triad variables threaded through `solve.solve_values`. -/
structure TriadState where
  sma : F
  ars : F
  rstar : F
  rplanet : F
  rprs : F
  period : F
  mstar : F

/-- The initial triad state extracted from a row at the top of
`solve_values`. -/
def initState (row : Row) : TriadState :=
  ⟨row.pl_orbsmax, row.pl_ratdor, row.st_rad, row.pl_rade, row.pl_ratror,
    row.pl_orbper, row.st_mass⟩

/-- The three initial missingness counts of `solve_values`, by triad
index. -/
def countsOf (row : Row) : Fin 3 → ℕ :=
  sel
    (nanCount3 (initState row).sma (initState row).ars (initState row).rstar)
    (nanCount3 (initState row).rplanet (initState row).rprs
      (initState row).rstar)
    (nanCount3 (initState row).period (initState row).sma
      (initState row).mstar)

/-- One iteration of the `for i in solve_order` loop of
`solve_values`. -/
noncomputable def triadStep (st : TriadState) (i : Fin 3) : TriadState :=
  if i.val = 0 then
    let s := solve_a_rs st.sma st.rstar st.ars
    { st with sma := s.1, rstar := s.2.1, ars := s.2.2 }
  else if i.val = 1 then
    let s := solve_rprs st.rplanet st.rstar st.rprs
    { st with rplanet := s.1, rstar := s.2.1, rprs := s.2.2 }
  else
    let s := solve_a_period st.period st.sma st.mstar
    { st with period := s.1, sma := s.2.1, mstar := s.2.2 }

/-- `solve.solve_values`: rank the three triads by initial missingness
count and solve them in that order. -/
noncomputable def solve_values (row : Row) : TriadState :=
  (argsort3 (countsOf row 0) (countsOf row 1) (countsOf row 2)).foldl
    triadStep (initState row)

/-- `solve.solve_relincl`: inclination of a row relative to the most
massive planet of its system, with quadrature-combined error bounds.
`none` models the pandas exception when every system mass is NaN. -/
noncomputable def solve_relincl (row : Row) (df : List Row) :
    Option (F × F × F) :=
  let host := hostOf df row.hostname
  match idxmaxF (massCol host) with
  | none => none
  | some m =>
    match lookupRow host m.1 with
    | none => none
    | some d =>
      some
        (osub d.pl_orbincl row.pl_orbincl,
          osqrtF (oadd (osq row.pl_orbinclerr1) (osq d.pl_orbinclerr1)),
          oneg
            (osqrtF (oadd (osq row.pl_orbinclerr2) (osq d.pl_orbinclerr2))))

/-- `solve.solve_namd`: return the cached `namd_{kind}` column when the
row has it; otherwise compute the system NAMD from the host's
`amd_{kind}`, `pl_bmasse` and `sqrt(pl_orbsmax)` columns. -/
noncomputable def solve_namd (row : Row) (df : List Row) (kind : Kind) : F :=
  match row.namdCache kind with
  | some v => v
  | none =>
    let host := hostOf df row.hostname
    odiv (osum (host.map fun p => (p.2.amdOf kind)))
      (osum
        (host.map fun p => omul p.2.pl_bmasse (osqrtF p.2.pl_orbsmax)))

/-! ## `interp.py`: the hierarchical attribute interpolator -/

/-- Zero a still-missing error bound (`x if not np.isnan(x) else 0.0`). -/
def fillZero (x : F) : F := if isnan x then some 0 else x

/-- `interp.interp_eccentricity`: impute a missing eccentricity from the
population relation `0.63 * sy_pnum ** (-1.02)` (flag `1+-`), then zero
still-missing error bounds (flags `1+`, `1-`).  Returns
`(ecc, eccerr1, eccerr2, flag)`. -/
noncomputable def interp_eccentricity (row : Row) : F × F × F × String :=
  let s1 : F × F × F × String :=
    if isnan row.pl_orbeccen then
      (some (0.63 * row.sy_pnum ^ (-1.02 : ℝ)), some 0, some 0,
        row.flag ++ "1+-")
    else
      (row.pl_orbeccen, row.pl_orbeccenerr1, row.pl_orbeccenerr2, row.flag)
  let s2 : F × F × F × String :=
    if isnan s1.2.1 then (s1.1, some 0, s1.2.2.1, s1.2.2.2 ++ "1+") else s1
  if isnan s2.2.2.1 then (s2.1, s2.2.1, some 0, s2.2.2.2 ++ "1-") else s2

/-- `interp.interp_mass`: if the mass is missing and a valid radius with
both error bounds lies strictly inside the plausibility window, query
the external mass--radius predictor (passed in as `predict`, returning
the 16/50/84 percentiles of its mass distribution) and set
`(mass, masserr1, masserr2) = (q50, q84 - q50, q16 - q50)` (flag `2+-`);
then zero still-missing mass error bounds (flags `2+`, `2-`). -/
noncomputable def interp_mass (predict : ℝ → ℝ → ℝ × ℝ × ℝ) (row : Row)
    (min_radius max_radius : ℝ) : F × F × F × String :=
  let s1 : F × F × F × String :=
    if isnan row.pl_bmasse ∧ ¬ isnan row.pl_rade ∧
        min_radius < row.pl_rade.getD 0 ∧ row.pl_rade.getD 0 < max_radius ∧
        ¬ isnan row.pl_radeerr1 ∧ ¬ isnan row.pl_radeerr2 then
      let q :=
        predict (row.pl_rade.getD 0)
          (0.5 * (row.pl_radeerr1.getD 0 - row.pl_radeerr2.getD 0))
      (some q.2.1, some (q.2.2 - q.2.1), some (q.1 - q.2.1),
        row.flag ++ "2+-")
    else
      (row.pl_bmasse, row.pl_bmasseerr1, row.pl_bmasseerr2, row.flag)
  let s2 : F × F × F × String :=
    if isnan s1.2.1 then (s1.1, some 0, s1.2.2.1, s1.2.2.2 ++ "2+") else s1
  if isnan s2.2.2.1 then (s2.1, s2.2.1, some 0, s2.2.2.2 ++ "2-") else s2

/-- The rows of a host sub-table whose inclination is NaN
(`host[host["pl_orbincl"].isnull()]`). -/
def inclnanOf (host : List (ℕ × Row)) : List (ℕ × Row) :=
  host.filter (fun p => isnan p.2.pl_orbincl)

/-- The rows of a host sub-table whose inclination is reported
(`host[host["pl_orbincl"].notnull()]`). -/
def inclnotnanOf (host : List (ℕ × Row)) : List (ℕ × Row) :=
  host.filter (fun p => !isnan p.2.pl_orbincl)

/-- `interp.interp_inclination`: three-way policy.  Self-known: zero
missing error bounds (flags `3+`, `3-`).  All system inclinations
missing: default to 90° with zero errors (flag `3+-`).  Otherwise copy
from the most massive planet, falling back to the most massive
*reporting* planet when the most massive one lacks inclination (flag
`3+-`).  `none` models the pandas `idxmax`/`loc` exception paths. -/
noncomputable def interp_inclination (row : Row) (df : List Row) :
    Option (F × F × F × String) :=
  let host := hostOf df row.hostname
  match idxmaxF (massCol host) with
  | none => none
  | some mm =>
    let inclnan := inclnanOf host
    if ¬ isnan row.pl_orbincl then
      let s1 : F × String :=
        if isnan row.pl_orbinclerr1 then (some 0, row.flag ++ "3+")
        else (row.pl_orbinclerr1, row.flag)
      let s2 : F × String :=
        if isnan row.pl_orbinclerr2 then (some 0, s1.2 ++ "3-")
        else (row.pl_orbinclerr2, s1.2)
      some (row.pl_orbincl, s1.1, s2.1, s2.2)
    else if inclnan.length = host.length then
      some (some 90, some 0, some 0, row.flag ++ "3+-")
    else if inclnan.any (fun p => p.1 == mm.1) then
      let inclnotnan := inclnotnanOf host
      match idxmaxF (massCol inclnotnan) with
      | none => none
      | some nmm =>
        match lookupRow host nmm.1 with
        | none => none
        | some d =>
          some (d.pl_orbincl, fillZero d.pl_orbinclerr1,
            fillZero d.pl_orbinclerr2, row.flag ++ "3+-")
    else
      match lookupRow host mm.1 with
      | none => none
      | some d =>
        some (d.pl_orbincl, fillZero d.pl_orbinclerr1,
          fillZero d.pl_orbinclerr2, row.flag ++ "3+-")

/-- `interp.interp_sma`: zero still-missing semi-major-axis error bounds
(flags `4+`, `4-`).  Returns `(smaerr1, smaerr2, flag)`. -/
def interp_sma (row : Row) : F × F × String :=
  let s1 : F × String :=
    if isnan row.pl_orbsmaxerr1 then (some 0, row.flag ++ "4+")
    else (row.pl_orbsmaxerr1, row.flag)
  let s2 : F × String :=
    if isnan row.pl_orbsmaxerr2 then (some 0, s1.2 ++ "4-")
    else (row.pl_orbsmaxerr2, s1.2)
  (s1.1, s2.1, s2.2)

/-- `interp.interp_trueobliq`: same three-way policy as
`interp_inclination` for the true obliquity (stage code `5`); the
all-missing default copies the row's relative inclination and its error
bounds verbatim. -/
noncomputable def interp_trueobliq (row : Row) (df : List Row) :
    Option (F × F × F × String) :=
  let host := hostOf df row.hostname
  match idxmaxF (massCol host) with
  | none => none
  | some mm =>
    let obliqnan := host.filter (fun p => isnan p.2.pl_trueobliq)
    if ¬ isnan row.pl_trueobliq then
      let s1 : F × String :=
        if isnan row.pl_trueobliqerr1 then (some 0, row.flag ++ "5+")
        else (row.pl_trueobliqerr1, row.flag)
      let s2 : F × String :=
        if isnan row.pl_trueobliqerr2 then (some 0, s1.2 ++ "5-")
        else (row.pl_trueobliqerr2, s1.2)
      some (row.pl_trueobliq, s1.1, s2.1, s2.2)
    else if obliqnan.length = host.length then
      some (row.pl_relincl, row.pl_relinclerr1, row.pl_relinclerr2,
        row.flag ++ "5+-")
    else if obliqnan.any (fun p => p.1 == mm.1) then
      let obliqnotnan := host.filter (fun p => ¬ isnan p.2.pl_trueobliq)
      match idxmaxF (massCol obliqnotnan) with
      | none => none
      | some nmm =>
        match lookupRow host nmm.1 with
        | none => none
        | some d =>
          some (d.pl_trueobliq, fillZero d.pl_trueobliqerr1,
            fillZero d.pl_trueobliqerr2, row.flag ++ "5+-")
    else
      match lookupRow host mm.1 with
      | none => none
      | some d =>
        some (d.pl_trueobliq, fillZero d.pl_trueobliqerr1,
          fillZero d.pl_trueobliqerr2, row.flag ++ "5+-")

/-! ## The Monte Carlo propagation engine

`np.random.normal` draws are modelled as explicit sample lists handed to
the functions; everything downstream of sampling is deterministic. -/

/-- One Monte Carlo draw of `(mass, eccen, di, sma)` for a single row in
`solve_amd_mc`. -/
structure Sample where
  m : ℝ
  e : ℝ
  di : ℝ
  a : ℝ

/-- The physical-validity mask of `solve_amd_mc`:
`(mass > 0) & (eccen >= 0) & (eccen < 1) & np.abs(di >= 0) & (di < 180)
& (sma > 0)` (note `np.abs` of a boolean is that boolean). -/
def physOK (s : Sample) : Prop :=
  0 < s.m ∧ 0 ≤ s.e ∧ s.e < 1 ∧ 0 ≤ s.di ∧ s.di < 180 ∧ 0 < s.a

/-- The surviving (unmasked) draws, i.e. `mass_mc.compressed()` and its
siblings. -/
noncomputable def maskFilter : List Sample → List Sample
  | [] => []
  | s :: rest => if physOK s then s :: maskFilter rest else maskFilter rest

/-- Sorted insertion used to model numpy's ascending sort. -/
noncomputable def insertAsc (x : ℝ) : List ℝ → List ℝ
  | [] => [x]
  | y :: ys => if x ≤ y then x :: y :: ys else y :: insertAsc x ys

/-- Ascending sort of a sample list. -/
noncomputable def sortAsc (l : List ℝ) : List ℝ := l.foldr insertAsc []

/-- Linear interpolation between the order statistics at fractional
position `h`: the common kernel of `np.percentile` and pandas
`quantile`. -/
noncomputable def interpAt (s : List ℝ) (h : ℝ) : ℝ :=
  let i := ⌊h⌋₊
  let lo := s.getD i 0
  let hi := s.getD (min (i + 1) (s.length - 1)) 0
  lo + (h - (i : ℝ)) * (hi - lo)

/-- `np.percentile(xs, q)` with the default linear interpolation:
`q` ranges over `[0, 100]` and the fractional position is
`q / 100 * (n - 1)`. -/
noncomputable def np_percentile (xs : List ℝ) (q : ℝ) : ℝ :=
  let s := sortAsc xs
  interpAt s (q / 100 * ((s.length : ℝ) - 1))

/-- pandas `Series.quantile(q)` with linear interpolation: `q` ranges
over `[0, 1]` and the fractional position is `q * (n - 1)`. -/
noncomputable def pd_quantile (xs : List ℝ) (q : ℝ) : ℝ :=
  let s := sortAsc xs
  interpAt s (q * ((s.length : ℝ) - 1))

/-- Result of `solve_amd_mc`: either the three quantile columns (cached,
NaN-gated, or computed) or, in `namd=True` mode, the raw surviving
sample arrays. -/
inductive MCResult
  | quantiles (q16 q50 q84 : F)
  | sampleArrays (amd mass sqrt_sma : List ℝ)

/-- `solve.solve_amd_mc` on one row: short-circuit on cached
`amd_{kind}_q*` columns (unless `namd`), mask unphysical draws, gate on
the surviving count, and otherwise either return the surviving sample
arrays (`namd=True`) or `np.percentile(amd, [0.16, 0.5, 0.84])` — note
the code passes `0.16/0.5/0.84`, not `16/50/84`, to `np.percentile`. -/
noncomputable def solve_amd_mc (row : Row) (kind : Kind)
    (samples : List Sample) (threshold : ℕ) (namd : Bool) : MCResult :=
  match namd, row.amdQCache kind with
  | false, some t => .quantiles t.1 t.2.1 t.2.2
  | _, _ =>
    let surv := maskFilter samples
    if surv.length < threshold then .quantiles none none none
    else
      let amd := surv.map fun s => compute_amd s.m s.e s.di s.a
      if namd then
        .sampleArrays amd (surv.map Sample.m)
          (surv.map fun s => Real.sqrt s.a)
      else
        .quantiles (some (np_percentile amd 0.16))
          (some (np_percentile amd 0.5)) (some (np_percentile amd 0.84))

/-- One Monte Carlo draw of `(mass, sma, eccen, relincl)` for a single
planet in `core.compute_namd_mcmc`. -/
structure PSample where
  m : ℝ
  a : ℝ
  e : ℝ
  di : ℝ

/-- The `good_idx` condition of `compute_namd_mcmc` for one planet's
draw. -/
def goodP (p : PSample) : Prop :=
  0 ≤ p.e ∧ p.e ≤ 1 ∧ 0 ≤ |p.di| ∧ |p.di| ≤ 180 ∧ 0 ≤ p.a ∧ 0 ≤ p.m

/-- Keep the draws whose `good_idx` holds for *all* planets of the
system. -/
noncomputable def goodRows : List (List PSample) → List (List PSample)
  | [] => []
  | d :: rest =>
    if ∀ p ∈ d, goodP p then d :: goodRows rest else goodRows rest

/-- The per-draw system NAMD of `compute_namd_mcmc`: summed per-planet
AMD over summed `mass * sqrt(sma)`. -/
noncomputable def namdOfDraw (d : List PSample) : ℝ :=
  (d.map fun p => compute_amd p.m p.e p.di p.a).sum /
    (d.map fun p => p.m * Real.sqrt p.a).sum

/-- `core.compute_namd_mcmc` downstream of sampling: one entry of
`draws` per Monte Carlo iteration, holding one `PSample` per planet.
Gate on `Npt // 20` surviving draws, else take the 0.16/0.5/0.84 pandas
quantiles of the per-draw NAMD distribution. -/
noncomputable def compute_namd_mcmc_core (draws : List (List PSample))
    (Npt : ℕ) : F × F × F :=
  let surv := goodRows draws
  if surv.length < Npt / 20 then (none, none, none)
  else
    let namds := surv.map namdOfDraw
    (some (pd_quantile namds 0.16), some (pd_quantile namds 0.5),
      some (pd_quantile namds 0.84))

/-! ## Helper lemmas -/

theorem idxmaxGo_le (l : List (ℕ × F)) (best : ℕ × ℝ) :
    best.2 ≤ (idxmaxGo best l).2 := by
  induction l generalizing best with
  | nil => exact le_refl _
  | cons p rest ih =>
    obtain ⟨i, x⟩ := p
    cases x with
    | none => exact ih best
    | some v =>
      by_cases h : best.2 < v
      · simpa [idxmaxGo, h] using le_trans (le_of_lt h) (ih (i, v))
      · simpa [idxmaxGo, h] using ih best

theorem idxmaxGo_mem (l : List (ℕ × F)) (best : ℕ × ℝ) :
    idxmaxGo best l = best ∨
      ((idxmaxGo best l).1, some (idxmaxGo best l).2) ∈ l := by
  induction l generalizing best with
  | nil => exact Or.inl rfl
  | cons p rest ih =>
    obtain ⟨i, x⟩ := p
    cases x with
    | none =>
      have hg : idxmaxGo best ((i, (none : F)) :: rest) =
          idxmaxGo best rest := by simp [idxmaxGo]
      rw [hg]
      rcases ih best with h | h
      · exact Or.inl h
      · exact Or.inr (List.mem_cons_of_mem _ h)
    | some v =>
      by_cases h : best.2 < v
      · have hg : idxmaxGo best ((i, some v) :: rest) =
            idxmaxGo (i, v) rest := by simp [idxmaxGo, h]
        rw [hg]
        rcases ih (i, v) with h' | h'
        · rw [h']
          exact Or.inr (List.mem_cons_self _ _)
        · exact Or.inr (List.mem_cons_of_mem _ h')
      · have hg : idxmaxGo best ((i, some v) :: rest) =
            idxmaxGo best rest := by simp [idxmaxGo, h]
        rw [hg]
        rcases ih best with h' | h'
        · exact Or.inl h'
        · exact Or.inr (List.mem_cons_of_mem _ h')

theorem idxmaxGo_ub (l : List (ℕ × F)) (best : ℕ × ℝ) :
    ∀ i v, (i, some v) ∈ l → v ≤ (idxmaxGo best l).2 := by
  induction l generalizing best with
  | nil => intro i v h; cases h
  | cons p rest ih =>
    obtain ⟨j, x⟩ := p
    intro i v hm
    cases x with
    | none =>
      rcases List.mem_cons.mp hm with h | h
      · cases h
      · exact ih best i v h
    | some w =>
      by_cases h : best.2 < w
      · rcases List.mem_cons.mp hm with he | he
        · obtain ⟨h1, h2⟩ := Prod.mk.injEq .. ▸ he
          simp only [idxmaxGo, h, if_true]
          have := idxmaxGo_le rest (j, w)
          have hv : v = w := by
            have := (Prod.ext_iff.mp he).2
            simpa using this
          simpa [hv] using this
        · simpa [idxmaxGo, h] using ih (j, w) i v he
      · rcases List.mem_cons.mp hm with he | he
        · have hv : v = w := by
            have := (Prod.ext_iff.mp he).2
            simpa using this
          have hw : w ≤ best.2 := le_of_not_lt h
          simp only [idxmaxGo, h, if_false]
          exact le_trans (hv ▸ le_refl v) (le_trans hw (idxmaxGo_le rest best))
        · simpa [idxmaxGo, h] using ih best i v he

theorem idxmaxF_spec (l : List (ℕ × F)) (j : ℕ) (w : ℝ)
    (h : idxmaxF l = some (j, w)) :
    (j, some w) ∈ l ∧ ∀ i v, (i, some v) ∈ l → v ≤ w := by
  induction l with
  | nil => cases h
  | cons p rest ih =>
    obtain ⟨i, x⟩ := p
    cases x with
    | none =>
      have h' : idxmaxF rest = some (j, w) := by simpa [idxmaxF] using h
      obtain ⟨hmem, hub⟩ := ih h'
      refine ⟨List.mem_cons_of_mem _ hmem, ?_⟩
      intro i' v hm
      rcases List.mem_cons.mp hm with he | he
      · cases he
      · exact hub i' v he
    | some v =>
      have h' : idxmaxGo (i, v) rest = (j, w) := by
        simpa [idxmaxF] using h
      constructor
      · rcases idxmaxGo_mem rest (i, v) with he | he
        · rw [h'] at he
          have h1 : j = i := congrArg Prod.fst he
          have h2 : w = v := congrArg Prod.snd he
          subst h1
          subst h2
          exact List.mem_cons_self _ _
        · rw [h'] at he
          exact List.mem_cons_of_mem _ he
      · intro i' v' hm
        rcases List.mem_cons.mp hm with he | he
        · have hv : v' = v := by
            have := (Prod.ext_iff.mp he).2
            simpa using this
          have := idxmaxGo_le rest (i, v)
          rw [h'] at this
          simpa [hv] using this
        · have := idxmaxGo_ub rest (i, v) i' v' he
          rw [h'] at this
          exact this

theorem hostOf_keys_nodup (df : List Row) (h : String) :
    ((hostOf df h).map Prod.fst).Nodup := by
  have hs : List.Sublist ((hostOf df h).map Prod.fst)
      (df.enum.map Prod.fst) :=
    (List.filter_sublist _).map Prod.fst
  exact (List.nodup_enum_map_fst df).sublist hs

theorem lookup_of_mem {l : List (ℕ × Row)}
    (hnd : (l.map Prod.fst).Nodup) {i : ℕ} {r : Row} (hm : (i, r) ∈ l) :
    lookupRow l i = some r := by
  induction l with
  | nil => cases hm
  | cons p rest ih =>
    obtain ⟨j, s⟩ := p
    simp only [List.map_cons] at hnd
    by_cases hji : j = i
    · subst hji
      rcases List.mem_cons.mp hm with he | he
      · obtain rfl : r = s := congrArg Prod.snd he
        simp [lookupRow, List.find?]
      · exfalso
        have hj : j ∈ rest.map Prod.fst := List.mem_map_of_mem Prod.fst he
        exact (List.nodup_cons.mp hnd).1 hj
    · have hne : (j == i) = false := by
        simpa using hji
      rcases List.mem_cons.mp hm with he | he
      · exact absurd (congrArg Prod.fst he).symm hji
      · have hrec := ih (List.nodup_cons.mp hnd).2 he
        simpa [lookupRow, List.find?, hne] using hrec

/-! ## Claim theorems -/

/-- Claim C5: for each of `solve_a_rs`, `solve_rprs` and
`solve_a_period`, whenever the number of NaN members among the triad's
three inputs is not exactly 1, the function returns the three inputs
unchanged. -/
theorem C5_triad_identity :
    (∀ sma rstar ars : F, nanCount3 sma ars rstar ≠ 1 →
      solve_a_rs sma rstar ars = (sma, rstar, ars)) ∧
    (∀ rplanet rstar rprs : F, nanCount3 rplanet rstar rprs ≠ 1 →
      solve_rprs rplanet rstar rprs = (rplanet, rstar, rprs)) ∧
    (∀ period sma mstar : F, nanCount3 period sma mstar ≠ 1 →
      solve_a_period period sma mstar = (period, sma, mstar)) := by
  refine ⟨fun sma rstar ars h => ?_, fun rplanet rstar rprs h => ?_,
    fun period sma mstar h => ?_⟩
  · unfold solve_a_rs
    rw [if_pos h]
  · unfold solve_rprs
    rw [if_pos h]
  · unfold solve_a_period
    rw [if_pos h]

/-- Witness for C5 at fully-known and fully-unknown triads. -/
theorem C5_triad_identity_witness :
    (nanCount3 (some 1) (some 2) (some 3) ≠ 1 ∧
      solve_a_rs (some 1) (some 2) (some 3) = (some 1, some 2, some 3)) ∧
    (nanCount3 (none : F) none none ≠ 1 ∧
      solve_rprs none none none = (none, none, none)) ∧
    (nanCount3 (some 4) (none : F) none ≠ 1 ∧
      solve_a_period (some 4) none none = (some 4, none, none)) :=
  ⟨⟨by decide, C5_triad_identity.1 (some 1) (some 2) (some 3) (by decide)⟩,
    ⟨by decide, C5_triad_identity.2.1 none none none (by decide)⟩,
    ⟨by decide, C5_triad_identity.2.2 (some 4) none none (by decide)⟩⟩

/-- Claim C2: in `solve_amd_mc` (without cached quantile columns) and in
`compute_namd_mcmc`, when fewer samples survive the physical-validity
mask than the threshold (`threshold`, resp. `Npt // 20`), all three
reported quantiles are NaN. -/
theorem C2_below_threshold_nan :
    (∀ (row : Row) (kind : Kind) (samples : List Sample) (threshold : ℕ)
        (namd : Bool),
      row.amdQCache kind = none →
      (maskFilter samples).length < threshold →
      solve_amd_mc row kind samples threshold namd =
        .quantiles none none none) ∧
    (∀ (draws : List (List PSample)) (Npt : ℕ),
      (goodRows draws).length < Npt / 20 →
      compute_namd_mcmc_core draws Npt = (none, none, none)) := by
  constructor
  · intro row kind samples threshold namd hc hlen
    unfold solve_amd_mc
    rw [hc]
    cases namd <;>
      · change (if (maskFilter samples).length < threshold then _ else _) = _
        rw [if_pos hlen]
  · intro draws Npt hlen
    unfold compute_namd_mcmc_core
    change (if (goodRows draws).length < Npt / 20 then _ else _) = _
    rw [if_pos hlen]

/-- Witness for C2: a single all-masked draw against threshold 1
(resp. `Npt = 20`, so `Npt // 20 = 1`). -/
theorem C2_below_threshold_nan_witness :
    solve_amd_mc {} .rel [⟨-1, 0, 90, 1⟩] 1 false =
      .quantiles none none none ∧
    compute_namd_mcmc_core [[⟨-1, 1, 0, 0⟩]] 20 = (none, none, none) := by
  constructor
  · refine C2_below_threshold_nan.1 {} .rel [⟨-1, 0, 90, 1⟩] 1 false rfl ?_
    have hno : ¬ physOK ⟨-1, 0, 90, 1⟩ := fun h => absurd h.1 (by norm_num)
    have hmf : maskFilter [⟨-1, 0, 90, 1⟩] = [] := by
      simp [maskFilter, hno]
    rw [hmf]
    norm_num
  · refine C2_below_threshold_nan.2 [[⟨-1, 1, 0, 0⟩]] 20 ?_
    have hno : ¬ goodP (⟨-1, 1, 0, 0⟩ : PSample) := by
      intro h
      exact absurd h.2.2.2.2.2 (by norm_num)
    have hgr : goodRows [[⟨-1, 1, 0, 0⟩]] = [] := by
      simp [goodRows, hno]
    rw [hgr]
    norm_num

/-- Claim C9: `solve_namd` returns the cached `namd_{kind}` value
unchanged (independently of the table) when the column is present, and
only when it is absent computes the NAMD from the system's `amd_{kind}`,
mass and sqrt(sma) columns. -/
theorem C9_namd_cache :
    (∀ (row : Row) (df df' : List Row) (kind : Kind) (v : F),
      row.namdCache kind = some v →
      solve_namd row df kind = v ∧
        solve_namd row df kind = solve_namd row df' kind) ∧
    (∀ (row : Row) (df : List Row) (kind : Kind),
      row.namdCache kind = none →
      solve_namd row df kind =
        odiv
          (osum ((hostOf df row.hostname).map fun p => p.2.amdOf kind))
          (osum ((hostOf df row.hostname).map fun p =>
            omul p.2.pl_bmasse (osqrtF p.2.pl_orbsmax)))) := by
  constructor
  · intro row df df' kind v hc
    constructor
    · unfold solve_namd
      rw [hc]
    · unfold solve_namd
      rw [hc]
  · intro row df kind hc
    unfold solve_namd
    rw [hc]

/-- Witness for C9: a row with a cached `namd_rel` column returns the
cache against any table, and a cache-free row computes from the host
columns. -/
theorem C9_namd_cache_witness :
    (solve_namd { namd_rel_col := some (some 7) } [] .rel = some 7 ∧
      solve_namd { namd_rel_col := some (some 7) } [] .rel =
        solve_namd { namd_rel_col := some (some 7) } [{}] .rel) ∧
    solve_namd {} [] .rel =
      odiv (osum ((hostOf [] "").map fun p => p.2.amdOf .rel))
        (osum ((hostOf [] "").map fun p =>
          omul p.2.pl_bmasse (osqrtF p.2.pl_orbsmax))) :=
  ⟨C9_namd_cache.1 { namd_rel_col := some (some 7) } [] [{}] .rel
      (some 7) rfl,
    C9_namd_cache.2 {} [] .rel rfl⟩

/-- Claim C10: whenever `solve_relincl` succeeds and the error inputs of
the row and of the system's most massive planet are non-NaN, it returns
`relinclerr1 = +sqrt(...) ≥ 0` and `relinclerr2 = -sqrt(...) ≤ 0`, even
if the input error bounds violate the sign convention. -/
theorem C10_relincl_sign
    (row : Row) (df : List Row) (a b c e : ℝ) (mm : ℕ × ℝ) (d : Row)
    (ha : row.pl_orbinclerr1 = some a) (hb : row.pl_orbinclerr2 = some b)
    (hmm : idxmaxF (massCol (hostOf df row.hostname)) = some mm)
    (hlook : lookupRow (hostOf df row.hostname) mm.1 = some d)
    (hc : d.pl_orbinclerr1 = some c) (he : d.pl_orbinclerr2 = some e) :
    ∃ v1 v2 : ℝ,
      solve_relincl row df =
        some (osub d.pl_orbincl row.pl_orbincl, some v1, some v2) ∧
      0 ≤ v1 ∧ v2 ≤ 0 := by
  refine ⟨Real.sqrt (a * a + c * c), -Real.sqrt (b * b + e * e), ?_,
    Real.sqrt_nonneg _, neg_nonpos.mpr (Real.sqrt_nonneg _)⟩
  have h1 : (0:ℝ) ≤ a * a + c * c :=
    add_nonneg (mul_self_nonneg a) (mul_self_nonneg c)
  have h2 : (0:ℝ) ≤ b * b + e * e :=
    add_nonneg (mul_self_nonneg b) (mul_self_nonneg e)
  simp [solve_relincl, hmm, hlook, ha, hb, hc, he, osq, omul, oadd, osqrtF,
    oneg, h1, h2]

/-- A one-planet witness system whose inclination error bounds violate
the sign convention. -/
noncomputable def w10 : Row :=
  { hostname := "h", pl_bmasse := some 1, pl_orbincl := some 30,
    pl_orbinclerr1 := some (-3), pl_orbinclerr2 := some 2 }

/-- Witness for C10: a one-planet system whose error bounds even violate
the sign convention still yields `err1 ≥ 0 ≥ err2`. -/
theorem C10_relincl_sign_witness :
    ∃ v1 v2 : ℝ,
      solve_relincl w10 [w10] =
        some (osub w10.pl_orbincl w10.pl_orbincl, some v1, some v2) ∧
      0 ≤ v1 ∧ v2 ≤ 0 :=
  C10_relincl_sign w10 [w10] (-3) 2 (-3) 2 (0, 1) w10 rfl rfl rfl rfl rfl rfl

theorem argsort3_length (a b c : ℕ) : (argsort3 a b c).length = 3 := by
  unfold argsort3
  split_ifs <;> rfl

theorem argsort3_perm (a b c : ℕ) : (argsort3 a b c).Perm [0, 1, 2] := by
  unfold argsort3
  split_ifs <;> decide

theorem argsort3_sorted (a b c : ℕ) :
    (argsort3 a b c).Pairwise (fun i j => sel a b c i ≤ sel a b c j) := by
  unfold argsort3
  split_ifs with h1 h2 h3 h4 h5 <;>
    simp [List.pairwise_cons, sel] <;> omega

/-- Claim C6: `solve_values` attempts exactly the three triads, in
ascending order of their missingness counts computed once from the row's
initial values. -/
theorem C6_solve_order (row : Row) :
    ∃ ord : List (Fin 3),
      ord.length = 3 ∧ ord.Perm [0, 1, 2] ∧
      ord.Pairwise (fun i j => countsOf row i ≤ countsOf row j) ∧
      solve_values row = ord.foldl triadStep (initState row) :=
  ⟨argsort3 (countsOf row 0) (countsOf row 1) (countsOf row 2),
    argsort3_length _ _ _, argsort3_perm _ _ _,
    argsort3_sorted _ _ _, rfl⟩

/-- Claim C3 counterexample: the AMD formula is *not* monotone
non-decreasing in eccentricity at inclination 120° ∈ [0, 180): with
mass 1, sma 1, eccentricities 0 ≤ 3/5 give strictly *decreasing* AMD. -/
theorem C3_counterexample :
    (0:ℝ) ≤ 1 ∧ (0:ℝ) ≤ 1 ∧ (0:ℝ) ≤ 120 ∧ (120:ℝ) < 180 ∧
    (0:ℝ) ≤ 0 ∧ (0:ℝ) ≤ 3/5 ∧ (3/5:ℝ) < 1 ∧
    compute_amd 1 (3/5) 120 1 < compute_amd 1 0 120 1 := by
  have hc : Real.cos (deg2rad 120) = -(1/2) := by
    have h : deg2rad 120 = Real.pi - Real.pi / 3 := by
      unfold deg2rad
      ring
    rw [h, Real.cos_pi_sub, Real.cos_pi_div_three]
  have h1 : compute_amd 1 0 120 1 = 3/2 := by
    unfold compute_amd
    rw [hc]
    norm_num [Real.sqrt_one]
  have h2 : compute_amd 1 (3/5) 120 1 = 7/5 := by
    unfold compute_amd
    rw [hc, show (1 - ((3:ℝ)/5) ^ 2) = (4/5)^2 by norm_num,
      Real.sqrt_sq (by norm_num : (0:ℝ) ≤ 4/5)]
    norm_num [Real.sqrt_one]
  refine ⟨by norm_num, by norm_num, by norm_num, by norm_num, by norm_num,
    by norm_num, by norm_num, ?_⟩
  rw [h1, h2]
  norm_num

/-- Claim C3 (amended): for fixed mass `m ≥ 0`, sma `a ≥ 0` and
inclination `di ∈ [0, 90]` (where the cosine is non-negative),
`compute_amd` is monotone non-decreasing in the eccentricity on
`[0, 1)`. -/
theorem C3_amd_monotone (m a di e1 e2 : ℝ) (hm : 0 ≤ m) (ha : 0 ≤ a)
    (hdi0 : 0 ≤ di) (hdi90 : di ≤ 90) (he1 : 0 ≤ e1) (he12 : e1 ≤ e2)
    (he2 : e2 < 1) :
    compute_amd m e1 di a ≤ compute_amd m e2 di a := by
  unfold compute_amd
  have hpi : (0:ℝ) ≤ Real.pi / 180 := by positivity
  have hcos : 0 ≤ Real.cos (deg2rad di) := by
    apply Real.cos_nonneg_of_mem_Icc
    constructor
    · have : (0:ℝ) ≤ di * (Real.pi / 180) := mul_nonneg hdi0 hpi
      unfold deg2rad
      linarith [Real.pi_pos]
    · have h90 : di * (Real.pi / 180) ≤ 90 * (Real.pi / 180) :=
        mul_le_mul_of_nonneg_right hdi90 hpi
      unfold deg2rad
      calc di * (Real.pi / 180) ≤ 90 * (Real.pi / 180) := h90
        _ = Real.pi / 2 := by ring
  have hsq : Real.sqrt (1 - e2 ^ 2) ≤ Real.sqrt (1 - e1 ^ 2) := by
    apply Real.sqrt_le_sqrt
    have : e1 ^ 2 ≤ e2 ^ 2 := pow_le_pow_left₀ he1 he12 2
    linarith
  have hmul : Real.sqrt (1 - e2 ^ 2) * Real.cos (deg2rad di) ≤
      Real.sqrt (1 - e1 ^ 2) * Real.cos (deg2rad di) :=
    mul_le_mul_of_nonneg_right hsq hcos
  have hma : 0 ≤ m * Real.sqrt a := mul_nonneg hm (Real.sqrt_nonneg a)
  apply mul_le_mul_of_nonneg_left _ hma
  linarith

/-- Witness for the amended C3 at `m = a = 1`, `di = 0`,
`e1 = 0 ≤ e2 = 1/2`. -/
theorem C3_amd_monotone_witness :
    (0:ℝ) ≤ 1 ∧ (0:ℝ) ≤ 0 ∧ (0:ℝ) ≤ 90 ∧ (0:ℝ) ≤ 0 ∧ (0:ℝ) ≤ 1/2 ∧
    (1/2:ℝ) < 1 ∧ compute_amd 1 0 0 1 ≤ compute_amd 1 (1/2) 0 1 :=
  ⟨by norm_num, by norm_num, by norm_num, by norm_num, by norm_num,
    by norm_num,
    C3_amd_monotone 1 1 0 0 (1/2) (by norm_num) (by norm_num) (by norm_num)
      (by norm_num) (by norm_num) (by norm_num) (by norm_num)⟩

/-- A row with a missing central eccentricity but a present upper error
bound. -/
noncomputable def c4row : Row := { pl_orbeccen := none, pl_orbeccenerr1 := some 5 }

/-- Claim C4 counterexample: `interp_eccentricity` *does* alter an
already-present value: on a row whose eccentricity is NaN but whose
upper error bound is 5, the returned upper error bound is 0. -/
theorem C4_counterexample :
    c4row.pl_orbeccenerr1 = some 5 ∧
    (interp_eccentricity c4row).2.1 = some 0 ∧
    (interp_eccentricity c4row).2.1 ≠ c4row.pl_orbeccenerr1 := by
  refine ⟨rfl, rfl, ?_⟩
  intro h
  have : (0:ℝ) = 5 := by
    have h' : (some 0 : F) = some 5 := h
    exact Option.some.inj h'
  norm_num at this

/-- Claim C4 (amended): when the *central* value is present, the
interpolators keep it and keep every present error bound; only when the
central value is missing may present error bounds be overwritten as part
of the imputation. -/
theorem C4_present_preserved :
    (∀ row : Row, isnan row.pl_orbeccen = false →
      (interp_eccentricity row).1 = row.pl_orbeccen ∧
      (isnan row.pl_orbeccenerr1 = false →
        (interp_eccentricity row).2.1 = row.pl_orbeccenerr1) ∧
      (isnan row.pl_orbeccenerr2 = false →
        (interp_eccentricity row).2.2.1 = row.pl_orbeccenerr2)) ∧
    (∀ (row : Row) (df : List Row) (out : F × F × F × String),
      isnan row.pl_orbincl = false →
      interp_inclination row df = some out →
      out.1 = row.pl_orbincl ∧
      (isnan row.pl_orbinclerr1 = false → out.2.1 = row.pl_orbinclerr1) ∧
      (isnan row.pl_orbinclerr2 = false →
        out.2.2.1 = row.pl_orbinclerr2)) := by
  constructor
  · intro row h
    by_cases h1 : isnan row.pl_orbeccenerr1 = true <;>
      by_cases h2 : isnan row.pl_orbeccenerr2 = true <;>
        simp [interp_eccentricity, h, h1, h2]
  · intro row df out h hsome
    cases hmm : idxmaxF (massCol (hostOf df row.hostname)) with
    | none => simp [interp_inclination, hmm] at hsome
    | some mm =>
      by_cases h1 : isnan row.pl_orbinclerr1 = true <;>
        by_cases h2 : isnan row.pl_orbinclerr2 = true <;>
          · simp [interp_inclination, hmm, h, h1, h2] at hsome
            subst hsome
            simp [h1, h2]

/-- A fully-reported witness row. -/
noncomputable def w4row : Row :=
  { hostname := "h", pl_bmasse := some 1, pl_orbeccen := some (1/10),
    pl_orbeccenerr1 := some (1/50), pl_orbeccenerr2 := some (-1/50),
    pl_orbincl := some 88, pl_orbinclerr1 := some 1,
    pl_orbinclerr2 := some (-1) }

/-- Witness for the amended C4 on a fully-reported row (one-planet
system for the inclination part). -/
theorem C4_present_preserved_witness :
    ((interp_eccentricity w4row).1 = w4row.pl_orbeccen ∧
      (isnan w4row.pl_orbeccenerr1 = false →
        (interp_eccentricity w4row).2.1 = w4row.pl_orbeccenerr1) ∧
      (isnan w4row.pl_orbeccenerr2 = false →
        (interp_eccentricity w4row).2.2.1 = w4row.pl_orbeccenerr2)) ∧
    (((some 88 : F), (some 1 : F), (some (-1) : F), "").1 =
        w4row.pl_orbincl ∧
      (isnan w4row.pl_orbinclerr1 = false →
        ((some 88 : F), (some 1 : F), (some (-1) : F), "").2.1 =
          w4row.pl_orbinclerr1) ∧
      (isnan w4row.pl_orbinclerr2 = false →
        ((some 88 : F), (some 1 : F), (some (-1) : F), "").2.2.1 =
          w4row.pl_orbinclerr2)) :=
  ⟨C4_present_preserved.1 w4row rfl,
    C4_present_preserved.2 w4row [w4row] (some 88, some 1, some (-1), "")
      rfl rfl⟩

theorem flagGrows_ecc (row : Row) :
    ∃ s, (interp_eccentricity row).2.2.2 = row.flag ++ s := by
  unfold interp_eccentricity
  by_cases h0 : isnan row.pl_orbeccen = true <;>
    by_cases h1 : isnan row.pl_orbeccenerr1 = true <;>
      by_cases h2 : isnan row.pl_orbeccenerr2 = true <;>
        simp [h0, h1, h2] <;>
        first
          | exact ⟨"1+-", rfl⟩
          | exact ⟨"1+" ++ "1-", by rw [String.append_assoc]⟩
          | exact ⟨"1+", rfl⟩
          | exact ⟨"1-", rfl⟩
          | exact ⟨"", (String.append_empty _).symm⟩

theorem flagGrows_mass (predict : ℝ → ℝ → ℝ × ℝ × ℝ) (row : Row)
    (min_radius max_radius : ℝ) :
    ∃ s, (interp_mass predict row min_radius max_radius).2.2.2 =
      row.flag ++ s := by
  unfold interp_mass
  by_cases h0 : isnan row.pl_bmasse = true ∧ isnan row.pl_rade = false ∧
      min_radius < row.pl_rade.getD 0 ∧ row.pl_rade.getD 0 < max_radius ∧
      isnan row.pl_radeerr1 = false ∧ isnan row.pl_radeerr2 = false <;>
    by_cases h1 : isnan row.pl_bmasseerr1 = true <;>
      by_cases h2 : isnan row.pl_bmasseerr2 = true <;>
        simp [h0, h1, h2] <;>
        first
          | exact ⟨"2+-", rfl⟩
          | exact ⟨"2+" ++ "2-", by rw [String.append_assoc]⟩
          | exact ⟨"2+", rfl⟩
          | exact ⟨"2-", rfl⟩
          | exact ⟨"", (String.append_empty _).symm⟩

theorem flagGrows_incl (row : Row) (df : List Row)
    (out : F × F × F × String) (hsome : interp_inclination row df = some out) :
    ∃ s, out.2.2.2 = row.flag ++ s := by
  cases hmm : idxmaxF (massCol (hostOf df row.hostname)) with
  | none => simp [interp_inclination, hmm] at hsome
  | some mm =>
    by_cases b0 : isnan row.pl_orbincl = true
    · by_cases b1 : (inclnanOf (hostOf df row.hostname)).length =
          (hostOf df row.hostname).length
      · simp [interp_inclination, hmm, b0, b1] at hsome
        subst hsome
        exact ⟨"3+-", rfl⟩
      · by_cases b2 : (inclnanOf (hostOf df row.hostname)).any
            (fun p => p.1 == mm.1) = true
        · cases hmm2 : idxmaxF (massCol (inclnotnanOf
              (hostOf df row.hostname))) with
          | none =>
            simp [interp_inclination, hmm, b0, b1, b2, hmm2] at hsome
          | some nmm =>
            cases hl : lookupRow (hostOf df row.hostname) nmm.1 with
            | none =>
              simp [interp_inclination, hmm, b0, b1, b2, hmm2, hl] at hsome
            | some d =>
              simp [interp_inclination, hmm, b0, b1, b2, hmm2, hl] at hsome
              subst hsome
              exact ⟨"3+-", rfl⟩
        · cases hl : lookupRow (hostOf df row.hostname) mm.1 with
          | none =>
            simp [interp_inclination, hmm, b0, b1, b2, hl] at hsome
          | some d =>
            simp [interp_inclination, hmm, b0, b1, b2, hl] at hsome
            subst hsome
            exact ⟨"3+-", rfl⟩
    · by_cases h1 : isnan row.pl_orbinclerr1 = true <;>
        by_cases h2 : isnan row.pl_orbinclerr2 = true <;>
          simp [interp_inclination, hmm, b0, h1, h2] at hsome <;>
          subst hsome <;>
          first
            | exact ⟨"3+" ++ "3-", by rw [String.append_assoc]⟩
            | exact ⟨"3+", rfl⟩
            | exact ⟨"3-", rfl⟩
            | exact ⟨"", (String.append_empty _).symm⟩

theorem flagGrows_sma (row : Row) :
    ∃ s, (interp_sma row).2.2 = row.flag ++ s := by
  unfold interp_sma
  by_cases h1 : isnan row.pl_orbsmaxerr1 = true <;>
    by_cases h2 : isnan row.pl_orbsmaxerr2 = true <;>
      simp [h1, h2] <;>
      first
        | exact ⟨"4+" ++ "4-", by rw [String.append_assoc]⟩
        | exact ⟨"4+", rfl⟩
        | exact ⟨"4-", rfl⟩
        | exact ⟨"", (String.append_empty _).symm⟩

theorem flagGrows_obliq (row : Row) (df : List Row)
    (out : F × F × F × String) (hsome : interp_trueobliq row df = some out) :
    ∃ s, out.2.2.2 = row.flag ++ s := by
  cases hmm : idxmaxF (massCol (hostOf df row.hostname)) with
  | none => simp [interp_trueobliq, hmm] at hsome
  | some mm =>
    by_cases b0 : isnan row.pl_trueobliq = true
    · by_cases b1 : ((hostOf df row.hostname).filter
          (fun p => isnan p.2.pl_trueobliq)).length =
          (hostOf df row.hostname).length
      · simp [interp_trueobliq, hmm, b0, b1] at hsome
        subst hsome
        exact ⟨"5+-", rfl⟩
      · by_cases b2 : ((hostOf df row.hostname).filter
            (fun p => isnan p.2.pl_trueobliq)).any
            (fun p => p.1 == mm.1) = true
        · cases hmm2 : idxmaxF (massCol ((hostOf df row.hostname).filter
              (fun p => !isnan p.2.pl_trueobliq))) with
          | none =>
            simp [interp_trueobliq, hmm, b0, b1, b2, hmm2] at hsome
          | some nmm =>
            cases hl : lookupRow (hostOf df row.hostname) nmm.1 with
            | none =>
              simp [interp_trueobliq, hmm, b0, b1, b2, hmm2, hl] at hsome
            | some d =>
              simp [interp_trueobliq, hmm, b0, b1, b2, hmm2, hl] at hsome
              subst hsome
              exact ⟨"5+-", rfl⟩
        · cases hl : lookupRow (hostOf df row.hostname) mm.1 with
          | none =>
            simp [interp_trueobliq, hmm, b0, b1, b2, hl] at hsome
          | some d =>
            simp [interp_trueobliq, hmm, b0, b1, b2, hl] at hsome
            subst hsome
            exact ⟨"5+-", rfl⟩
    · by_cases h1 : isnan row.pl_trueobliqerr1 = true <;>
        by_cases h2 : isnan row.pl_trueobliqerr2 = true <;>
          simp [interp_trueobliq, hmm, b0, h1, h2] at hsome <;>
          subst hsome <;>
          first
            | exact ⟨"5+" ++ "5-", by rw [String.append_assoc]⟩
            | exact ⟨"5+", rfl⟩
            | exact ⟨"5-", rfl⟩
            | exact ⟨"", (String.append_empty _).symm⟩

/-- Claim C8: every interpolation function returns a flag string that
extends the input flag string by a (possibly empty) suffix, so flags are
never truncated or reset. -/
theorem C8_flag_extends :
    (∀ row : Row, ∃ s, (interp_eccentricity row).2.2.2 = row.flag ++ s) ∧
    (∀ (predict : ℝ → ℝ → ℝ × ℝ × ℝ) (row : Row)
        (min_radius max_radius : ℝ),
      ∃ s, (interp_mass predict row min_radius max_radius).2.2.2 =
        row.flag ++ s) ∧
    (∀ (row : Row) (df : List Row) (out : F × F × F × String),
      interp_inclination row df = some out →
      ∃ s, out.2.2.2 = row.flag ++ s) ∧
    (∀ row : Row, ∃ s, (interp_sma row).2.2 = row.flag ++ s) ∧
    (∀ (row : Row) (df : List Row) (out : F × F × F × String),
      interp_trueobliq row df = some out →
      ∃ s, out.2.2.2 = row.flag ++ s) :=
  ⟨flagGrows_ecc, flagGrows_mass, flagGrows_incl, flagGrows_sma,
    flagGrows_obliq⟩

/-- A fully-reported one-planet witness system with a nonempty flag. -/
noncomputable def w8row : Row :=
  { hostname := "h", flag := "X", pl_bmasse := some 1,
    pl_orbincl := some 88, pl_orbinclerr1 := some 1,
    pl_orbinclerr2 := some (-1), pl_trueobliq := some 10,
    pl_trueobliqerr1 := some 2, pl_trueobliqerr2 := some (-2) }

/-- Witness for C8 on a concrete row and one-planet system. -/
theorem C8_flag_extends_witness :
    (∃ s, (interp_eccentricity w8row).2.2.2 = w8row.flag ++ s) ∧
    (∃ s, (interp_mass (fun _ _ => (0, 0, 0)) w8row 0.5 6.0).2.2.2 =
      w8row.flag ++ s) ∧
    (∃ s, ((some 88 : F), (some 1 : F), (some (-1) : F), "X").2.2.2 =
      w8row.flag ++ s) ∧
    (∃ s, (interp_sma w8row).2.2 = w8row.flag ++ s) ∧
    (∃ s, ((some 10 : F), (some 2 : F), (some (-2) : F), "X").2.2.2 =
      w8row.flag ++ s) :=
  ⟨C8_flag_extends.1 w8row,
    C8_flag_extends.2.1 (fun _ _ => (0, 0, 0)) w8row 0.5 6.0,
    C8_flag_extends.2.2.1 w8row [w8row] (some 88, some 1, some (-1), "X")
      rfl,
    C8_flag_extends.2.2.2.1 w8row,
    C8_flag_extends.2.2.2.2 w8row [w8row] (some 10, some 2, some (-2), "X")
      rfl⟩

/-- Claim C7: when the row's inclination is missing, some planet of the
system reports one, and the most massive planet does not, then
`interp_inclination` copies value and error bounds (NaN errors zeroed)
from the most massive *reporting* planet and appends `"3+-"`. -/
theorem C7_fallback_most_massive_reporting
    (row : Row) (df : List Row) (mm nmm : ℕ × ℝ)
    (h1 : isnan row.pl_orbincl = true)
    (h2 : idxmaxF (massCol (hostOf df row.hostname)) = some mm)
    (h3 : (inclnanOf (hostOf df row.hostname)).length ≠
      (hostOf df row.hostname).length)
    (h4 : (inclnanOf (hostOf df row.hostname)).any
      (fun p => p.1 == mm.1) = true)
    (h5 : idxmaxF (massCol (inclnotnanOf (hostOf df row.hostname))) =
      some nmm) :
    ∃ d : Row,
      (nmm.1, d) ∈ inclnotnanOf (hostOf df row.hostname) ∧
      d.pl_bmasse = some nmm.2 ∧
      (∀ q ∈ inclnotnanOf (hostOf df row.hostname),
        ∀ u : ℝ, (q : ℕ × Row).2.pl_bmasse = some u → u ≤ nmm.2) ∧
      interp_inclination row df =
        some (d.pl_orbincl, fillZero d.pl_orbinclerr1,
          fillZero d.pl_orbinclerr2, row.flag ++ "3+-") := by
  obtain ⟨hmem, hub⟩ := idxmaxF_spec _ nmm.1 nmm.2 (by
    simpa using h5)
  obtain ⟨p, hp, hpe⟩ := List.mem_map.mp hmem
  obtain ⟨hpe1, hpe2⟩ := Prod.mk.injEq .. ▸ hpe
  refine ⟨p.2, ?_, ?_, ?_, ?_⟩
  · have : p = (nmm.1, p.2) := by
      rw [← hpe1]
    rw [← this]
    exact hp
  · exact hpe2
  · intro q hq u hqu
    have hmem2 : (q.1, q.2.pl_bmasse) ∈
        massCol (inclnotnanOf (hostOf df row.hostname)) :=
      List.mem_map_of_mem _ hq
    rw [hqu] at hmem2
    exact hub q.1 u hmem2
  · have hhost : (nmm.1, p.2) ∈ hostOf df row.hostname := by
      have : p = (nmm.1, p.2) := by
        rw [← hpe1]
      exact (List.mem_filter.mp (this ▸ hp)).1
    have hlook : lookupRow (hostOf df row.hostname) nmm.1 = some p.2 :=
      lookup_of_mem (hostOf_keys_nodup df row.hostname) hhost
    simp [interp_inclination, h2, h1, h3, h4, h5, hlook]

/-- Witness planet A: most massive, no inclination. -/
noncomputable def w7a : Row := { hostname := "h", pl_bmasse := some 10 }

/-- Witness planet B: less massive, reports inclination (lower error
bound missing). -/
noncomputable def w7b : Row :=
  { hostname := "h", pl_bmasse := some 5, pl_orbincl := some 89,
    pl_orbinclerr1 := some 1 }

/-- Witness for C7: in the two-planet system `[w7a, w7b]` the row of
planet A receives planet B's inclination, B being the most massive
reporting planet. -/
theorem C7_fallback_witness :
    ∃ d : Row,
      (1, d) ∈ inclnotnanOf (hostOf [w7a, w7b] w7a.hostname) ∧
      d.pl_bmasse = some 5 ∧
      (∀ q ∈ inclnotnanOf (hostOf [w7a, w7b] w7a.hostname),
        ∀ u : ℝ, (q : ℕ × Row).2.pl_bmasse = some u → u ≤ 5) ∧
      interp_inclination w7a [w7a, w7b] =
        some (d.pl_orbincl, fillZero d.pl_orbinclerr1,
          fillZero d.pl_orbinclerr2, w7a.flag ++ "3+-") := by
  have h2 : idxmaxF (massCol (hostOf [w7a, w7b] w7a.hostname)) =
      some (0, 10) := by
    have hh : massCol (hostOf [w7a, w7b] w7a.hostname) =
        [(0, some 10), (1, some 5)] := rfl
    rw [hh]
    simp only [idxmaxF, idxmaxGo]
    rw [if_neg (by norm_num : ¬ (10:ℝ) < (5:ℝ))]
  have h5 : idxmaxF (massCol (inclnotnanOf (hostOf [w7a, w7b]
      w7a.hostname))) = some (1, 5) := rfl
  exact C7_fallback_most_massive_reporting w7a [w7a, w7b] (0, 10) (1, 5)
    rfl h2 (by decide) rfl h5

theorem sortAsc_pair (x y : ℝ) (hxy : x ≤ y) : sortAsc [x, y] = [x, y] := by
  simp [sortAsc, insertAsc, hxy]

/-- `np.percentile` on a sorted two-element list interpolates linearly
between the two values with weight `q / 100`. -/
theorem np_percentile_two (x y : ℝ) (hxy : x ≤ y) (q : ℝ) (h0 : 0 ≤ q)
    (h1 : q < 100) :
    np_percentile [x, y] q = x + q / 100 * (y - x) := by
  unfold np_percentile
  rw [sortAsc_pair x y hxy]
  unfold interpAt
  have hfl : ⌊q / 100 * ((([x, y].length : ℕ) : ℝ) - 1)⌋₊ = 0 := by
    apply Nat.floor_eq_zero.mpr
    simp only [List.length_cons, List.length_nil]
    push_cast
    nlinarith
  simp only [List.length_cons, List.length_nil] at hfl ⊢
  rw [hfl]
  simp [List.getD]
  left
  ring

/-- A cache-free row for the Monte Carlo percentile evaluation. -/
noncomputable def c1row : Row := {}

/-- Claim C1: `solve_amd_mc` is supposed to return the 16th/50th/84th
percentiles of the surviving AMD sample distribution, but it calls
`np.percentile` (whose `q` ranges over 0..100) with `0.16/0.5/0.84`,
so it actually returns the 0.16th/0.5th/0.84th percentiles.  On two
surviving draws with AMD values 1 and 2 (threshold 2) the reported
q16 is 1.0016, while the 16th percentile of that distribution is
1.16. -/
theorem C1_percentile_bug :
    solve_amd_mc c1row .rel [⟨1, 0, 90, 1⟩, ⟨2, 0, 90, 1⟩] 2 false =
      .quantiles (some (626/625)) (some (201/200)) (some (2521/2500)) ∧
    np_percentile [1, 2] 16 = 29/25 ∧
    np_percentile [1, 2] 50 = 3/2 ∧
    np_percentile [1, 2] 84 = 46/25 ∧
    ((626:ℝ)/625 ≠ 29/25 ∧ (201:ℝ)/200 ≠ 3/2 ∧ (2521:ℝ)/2500 ≠ 46/25) := by
  have hphys1 : physOK ⟨1, 0, 90, 1⟩ := by
    refine ⟨by norm_num, by norm_num, by norm_num, by norm_num,
      by norm_num, by norm_num⟩
  have hphys2 : physOK ⟨2, 0, 90, 1⟩ := by
    refine ⟨by norm_num, by norm_num, by norm_num, by norm_num,
      by norm_num, by norm_num⟩
  have hamd1 : compute_amd 1 0 90 1 = 1 := by
    unfold compute_amd deg2rad
    rw [show (90:ℝ) * (Real.pi / 180) = Real.pi / 2 by ring,
      Real.cos_pi_div_two]
    norm_num
  have hamd2 : compute_amd 2 0 90 1 = 2 := by
    unfold compute_amd deg2rad
    rw [show (90:ℝ) * (Real.pi / 180) = Real.pi / 2 by ring,
      Real.cos_pi_div_two]
    norm_num
  have hmf : maskFilter [⟨1, 0, 90, 1⟩, ⟨2, 0, 90, 1⟩] =
      [⟨1, 0, 90, 1⟩, ⟨2, 0, 90, 1⟩] := by
    simp [maskFilter, hphys1, hphys2]
  refine ⟨?_, ?_, ?_, ?_, by norm_num, by norm_num, by norm_num⟩
  · unfold solve_amd_mc
    have hc : c1row.amdQCache Kind.rel = none := rfl
    rw [hc]
    change (if (maskFilter [⟨1, 0, 90, 1⟩, ⟨2, 0, 90, 1⟩]).length < 2
      then _ else _) = _
    rw [hmf]
    rw [if_neg (by norm_num)]
    have hmap : List.map (fun s => compute_amd s.m s.e s.di s.a)
        [(⟨1, 0, 90, 1⟩ : Sample), ⟨2, 0, 90, 1⟩] = [1, 2] := by
      simp [hamd1, hamd2]
    change MCResult.quantiles
        (some (np_percentile (List.map
          (fun s => compute_amd s.m s.e s.di s.a)
          [(⟨1, 0, 90, 1⟩ : Sample), ⟨2, 0, 90, 1⟩]) 0.16))
        (some (np_percentile (List.map
          (fun s => compute_amd s.m s.e s.di s.a)
          [(⟨1, 0, 90, 1⟩ : Sample), ⟨2, 0, 90, 1⟩]) 0.5))
        (some (np_percentile (List.map
          (fun s => compute_amd s.m s.e s.di s.a)
          [(⟨1, 0, 90, 1⟩ : Sample), ⟨2, 0, 90, 1⟩]) 0.84)) = _
    rw [hmap]
    rw [np_percentile_two 1 2 (by norm_num) 0.16 (by norm_num) (by norm_num),
      np_percentile_two 1 2 (by norm_num) 0.5 (by norm_num) (by norm_num),
      np_percentile_two 1 2 (by norm_num) 0.84 (by norm_num) (by norm_num)]
    norm_num
  · rw [np_percentile_two 1 2 (by norm_num) 16 (by norm_num) (by norm_num)]
    norm_num
  · rw [np_percentile_two 1 2 (by norm_num) 50 (by norm_num) (by norm_num)]
    norm_num
  · rw [np_percentile_two 1 2 (by norm_num) 84 (by norm_num) (by norm_num)]
    norm_num

end ExoNAMD
